import Mathlib

/-!
Verification of the Gaussian-splat PLY loader (gaussian-splat-loader.js).

The loader is shallowly embedded at the byte level: an input buffer is a
`List Nat` of bytes, header lines are byte lists, and JavaScript numbers are
idealised as rationals (`JSNum := Option Rat`, with `none` playing the role
of `NaN`).  The post-processing transforms that use `Math.exp` land in `Real`.

Modelling conventions, noted once here:
* `String.trim` / `split` / `parseInt` / `parseFloat` act on the UTF-8 decoded
  text; the byte-level model is exact for ASCII and for any valid UTF-8
  header content (UTF-8 multi-byte sequences never contain the bytes 0x0A or
  0x20, and trimming only removes ASCII whitespace here — the exotic Unicode
  whitespace classes of JavaScript `trim` are outside the model).
* `parseInt` hex prefixes and `parseFloat` of the literal `Infinity` are not
  modelled; no claim touches them.
* IEEE-754 `NaN` and the infinities have no rational value; a float field
  holding them decodes to `none` (JavaScript `NaN` behaves the same way in
  every falsy check the loader performs; infinities never appear in any
  claim's inputs).
* A `DataView` read past the end of the buffer throws a `RangeError` in
  JavaScript, aborting the whole decode; the binary decode therefore returns
  `Option (List Splat)`, with `none` for the aborted load.
-/

set_option autoImplicit false

namespace GSplat

/-- Bytes of an ASCII string (for ASCII, code points coincide with UTF-8
bytes). -/
def bs (s : String) : List Nat := s.data.map Char.toNat

/-- ASCII whitespace bytes removed by trimming and recognised by the
whitespace token separator. -/
def isWSb (b : Nat) : Bool := b == 32 || (9 ≤ b && b ≤ 13)

/-- Byte-level model of JavaScript `String.trim` (ASCII whitespace). -/
def trimB (l : List Nat) : List Nat :=
  ((l.dropWhile isWSb).reverse.dropWhile isWSb).reverse

/-- Byte-level model of `String.split` with a one-character separator:
splits at every byte satisfying `p`, keeping empty segments, like
`text.split(sep)` in JavaScript. -/
def splitP (p : Nat → Bool) : List Nat → List (List Nat)
  | [] => [[]]
  | b :: rest =>
    let r := splitP p rest
    if p b then [] :: r
    else
      match r with
      | s :: ss => (b :: s) :: ss
      | [] => [[b]]

/-- Leading decimal-digit bytes of a token. -/
def takeDigits : List Nat → List Nat
  | b :: rest => if 48 ≤ b && b ≤ 57 then b :: takeDigits rest else []
  | [] => []

/-- Numeric value of a list of decimal-digit bytes. -/
def digitsToNat (l : List Nat) : Nat :=
  l.foldl (fun acc b => acc * 10 + (b - 48)) 0

/-- Byte-level model of JavaScript `parseInt` on a token: skip whitespace,
optional sign, then the longest run of decimal digits; `none` is `NaN`
(no digits, or the token was `undefined`). -/
def parseIntB (tok : List Nat) : Option Int :=
  let t := trimB tok
  let sr : Int × List Nat :=
    match t with
    | 45 :: r => (-1, r)
    | 43 :: r => (1, r)
    | r => (1, r)
  let ds := takeDigits sr.2
  if ds = [] then none else some (sr.1 * digitsToNat ds)

/-- A JavaScript number idealised as a rational; `none` stands for `NaN`. -/
abbrev JSNum := Option ℚ

/-- Exponent part of a `parseFloat` literal: optional sign then digits;
a malformed exponent contributes a factor of one (JavaScript stops parsing
before the `e`). -/
def expVal (r : List Nat) : Int :=
  let sr : Int × List Nat :=
    match r with
    | 45 :: x => (-1, x)
    | 43 :: x => (1, x)
    | x => (1, x)
  let ds := takeDigits sr.2
  if ds = [] then 0 else sr.1 * digitsToNat ds

/-- Byte-level model of JavaScript `parseFloat` on a token: optional sign,
integer digits, optional fraction, optional decimal exponent, ignoring any
trailing garbage; `none` is `NaN`. -/
def parseFloatB (tok : List Nat) : JSNum :=
  let t := trimB tok
  let sr : ℚ × List Nat :=
    match t with
    | 45 :: r => (-1, r)
    | 43 :: r => (1, r)
    | r => (1, r)
  let ip := takeDigits sr.2
  let r2 := sr.2.drop ip.length
  let fr : List Nat × List Nat :=
    match r2 with
    | 46 :: r => (takeDigits r, r.drop (takeDigits r).length)
    | r => ([], r)
  if ip = [] ∧ fr.1 = [] then none
  else
    let base : ℚ := (digitsToNat ip : ℚ) + (digitsToNat fr.1 : ℚ) / 10 ^ fr.1.length
    let e : Int :=
      match fr.2 with
      | 101 :: r => expVal r
      | 69 :: r => expVal r
      | _ => 0
    some (sr.1 * base * 10 ^ e)

/-- One `property <type> <name>` declaration of the PLY header.  A short
property line stores `undefined` in JavaScript for the missing slots; that is
modelled as the empty byte string (it hits the same default branch of
`getTypeSize`, and no claim involves such a line). -/
structure PlyProperty where
  type : List Nat
  name : List Nat
deriving DecidableEq

/-- The header object built by `parseHeader` (gaussian-splat-loader.js,
lines 48-53), together with the loader's `littleEndian` flag which the
header parse mutates on a `format` line. -/
structure PlyHeader where
  format : Option (List Nat)
  vertexCount : Option Int
  properties : List PlyProperty
  headerLength : Nat
  littleEndian : Bool
deriving DecidableEq

/-- Header update for one in-header line that is neither `ply` nor
`end_header` (lines 74-87 of the loader): dispatch on `parts[0]`. -/
def headerStep (h : PlyHeader) (t : List Nat) : PlyHeader :=
  let parts := splitP (fun b => b == 32) t
  if parts.get? 0 = some (bs "format") then
    { h with format := parts.get? 1,
             littleEndian := parts.get? 1 = some (bs "binary_little_endian") }
  else if parts.get? 0 = some (bs "element") ∧ parts.get? 1 = some (bs "vertex") then
    { h with vertexCount := (parts.get? 2).bind parseIntB }
  else if parts.get? 0 = some (bs "property") then
    { h with properties :=
        h.properties ++ [⟨(parts.get? 1).getD [], (parts.get? 2).getD []⟩] }
  else h

/-- The header-parsing loop (lines 58-88): every line is trimmed and its
trimmed form plus one newline is accumulated into the running byte count;
`ply` switches `inHeader` on, `end_header` records the accumulated byte count
as `headerLength` and stops, lines outside the header are otherwise
skipped. -/
def parseHeaderLoop : List (List Nat) → PlyHeader → Bool → Nat → PlyHeader
  | [], h, _, _ => h
  | l :: rest, h, inH, acc =>
    let t := trimB l
    let acc' := acc + t.length + 1
    if t = bs "ply" then parseHeaderLoop rest h true acc'
    else if t = bs "end_header" then { h with headerLength := acc' }
    else if inH = false then parseHeaderLoop rest h inH acc'
    else parseHeaderLoop rest (headerStep h t) inH acc'

/-- Model of `parseHeader` (lines 44-91): split the decoded buffer on newlines and run
the header loop from the initial header object (`format: 'ascii'`,
`vertexCount: 0`, no properties, `headerLength: 0`; the loader's constructor
initialises `littleEndian` to `true`). -/
def parseHeader (buf : List Nat) : PlyHeader :=
  parseHeaderLoop (splitP (fun b => b == 10) buf)
    { format := some (bs "ascii"), vertexCount := some 0, properties := [],
      headerLength := 0, littleEndian := true } false 0

/-- Modelled from the spec: the true byte offset where vertex data begins —
the byte length of all header lines up to and including the terminating
`end_header` newline, measured on the raw (untrimmed) lines of the buffer.
The terminating line is identified the way the parser identifies it (by its
trimmed content); for the well-formed headers the specification describes the
two coincide.  `none` when no `end_header` line exists. -/
def trueHeaderLen : List (List Nat) → Option Nat
  | [] => none
  | l :: rest =>
    if trimB l = bs "end_header" then some (l.length + 1)
    else (trueHeaderLen rest).map (fun n => l.length + 1 + n)

/-- The header lines up to and including the line the parser stops at. -/
def linesThroughEnd : List (List Nat) → List (List Nat)
  | [] => []
  | l :: rest =>
    if trimB l = bs "end_header" then [l] else l :: linesThroughEnd rest

/-- Model of `getTypeSize` (lines 121-130): byte width of a scalar type token;
unrecognised tokens default to four bytes. -/
def getTypeSize (t : List Nat) : Nat :=
  if t = bs "float" then 4
  else if t = bs "double" then 8
  else if t = bs "int" then 4
  else if t = bs "uint" then 4
  else if t = bs "short" then 2
  else if t = bs "ushort" then 2
  else if t = bs "char" then 1
  else if t = bs "uchar" then 1
  else 4

/-- The offsets half of `createPropertyMap` (lines 104-119): each property
paired with its byte offset, accumulated in declaration order. -/
def propOffsets : List PlyProperty → Nat → List (PlyProperty × Nat)
  | [], _ => []
  | p :: ps, off => (p, off) :: propOffsets ps (off + getTypeSize p.type)

/-- The `vertexSize` entry of `createPropertyMap`: total record byte size. -/
def vertexSize (props : List PlyProperty) : Nat :=
  (props.map (fun p => getTypeSize p.type)).sum

/-- Little-endian byte assembly. -/
def bytesToNatLE : List Nat → Nat
  | [] => 0
  | b :: rest => b + 256 * bytesToNatLE rest

/-- Assemble the raw bit pattern of a scalar honouring endianness. -/
def assembleBits (le : Bool) (bytes : List Nat) : Nat :=
  bytesToNatLE (if le then bytes else bytes.reverse)

/-- Two's-complement reinterpretation of an `nbytes`-wide bit pattern. -/
def toSigned (nbytes : Nat) (val : Nat) : ℚ :=
  if val < 2 ^ (8 * nbytes - 1) then (val : ℚ) else (val : ℚ) - 2 ^ (8 * nbytes)

/-- Exact value of an IEEE-754 bit pattern with `ebits` exponent bits and
`mbits` mantissa bits.  `none` for the non-finite encodings (NaN and the
infinities have no rational value; see the file header). -/
def decodeIEEE (ebits mbits : Nat) (bits : Nat) : JSNum :=
  let m := bits % 2 ^ mbits
  let e := bits / 2 ^ mbits % 2 ^ ebits
  let sgn : ℚ := if bits / 2 ^ (mbits + ebits) % 2 = 1 then -1 else 1
  let bias := 2 ^ (ebits - 1) - 1
  if e = 2 ^ ebits - 1 then none
  else if e = 0 then some (sgn * m * 2 / 2 ^ (bias + mbits))
  else some (sgn * (2 ^ mbits + m) * 2 ^ e / 2 ^ (bias + mbits))

/-- Value of one scalar read, by type token (the value half of
`readBinaryValue`, lines 167-188; the default branch is `getFloat32`). -/
def decodeScalar (t : List Nat) (bytes : List Nat) (le : Bool) : JSNum :=
  if t = bs "float" then decodeIEEE 8 23 (assembleBits le bytes)
  else if t = bs "double" then decodeIEEE 11 52 (assembleBits le bytes)
  else if t = bs "int" then some (toSigned 4 (assembleBits le bytes))
  else if t = bs "uint" then some (assembleBits le bytes)
  else if t = bs "short" then some (toSigned 2 (assembleBits le bytes))
  else if t = bs "ushort" then some (assembleBits le bytes)
  else if t = bs "char" then some (toSigned 1 (assembleBits le bytes))
  else if t = bs "uchar" then some (assembleBits le bytes)
  else decodeIEEE 8 23 (assembleBits le bytes)

/-- The `DataView` bounds discipline: a read of `n` bytes at `off` succeeds
exactly when it stays inside the buffer, otherwise JavaScript throws a
`RangeError`. -/
def readBytes (buf : List Nat) (off n : Nat) : Option (List Nat) :=
  if off + n ≤ buf.length then some ((buf.drop off).take n) else none

/-- Model of `readBinaryValue` (lines 167-188): bounds-checked typed read.  The outer
`Option` is the `RangeError`; the inner `JSNum` is the value. -/
def readBinaryValue (buf : List Nat) (off : Nat) (t : List Nat) (le : Bool) :
    Option JSNum :=
  (readBytes buf off (getTypeSize t)).map (fun bytes => decodeScalar t bytes le)

/-- The dynamic vertex object: property name to value, in assignment order.
JavaScript keeps one slot per key (a duplicate property name would overwrite);
header property names are unique, and the lookup below takes the first
match. -/
abbrev Vertex := List (List Nat × JSNum)

/-- Property lookup on a vertex object; `none` is JavaScript `undefined`. -/
def jget : Vertex → List Nat → Option JSNum
  | [], _ => none
  | (k, x) :: rest, n => if k = n then some x else jget rest n

/-- JavaScript truthiness of a possibly-missing number: `undefined`, `NaN`
and `0` are falsy; a truthy value is returned as is. -/
def jtruthy : Option JSNum → Option ℚ
  | some (some x) => if x = 0 then none else some x
  | _ => none

/-- One-step JavaScript `a || d` with a numeric default. -/
def jsOr1 (a : Option JSNum) (d : ℚ) : ℚ := (jtruthy a).getD d

/-- Two-step JavaScript `a || b || d` with a numeric default. -/
def jsOr2 (a b : Option JSNum) (d : ℚ) : ℚ :=
  ((jtruthy a).orElse (fun _ => jtruthy b)).getD d

/-- The SH degree-0 encoding constant `0.28209479177387814` of the loader. -/
def shC0 : ℚ := 0.28209479177387814

/-- The processed per-point record produced by `processVertex`
(lines 200-268).  Position, the pre-exponential scale inputs, the DC
coefficients before the colour fallback, and the rest coefficients are plain
rationals; the exponential scale and sigmoid opacity live in `Real`;
rotation keeps the four raw fields exactly as read (possibly `undefined`). -/
structure Splat where
  position : ℚ × ℚ × ℚ
  scale : ℝ × ℝ × ℝ
  rotation : Option JSNum × Option JSNum × Option JSNum × Option JSNum
  opacity : ℝ
  sh_dc : JSNum × JSNum × JSNum
  sh_rest : List ℚ

/-- Clamp a real to the unit interval, as in
`Math.max(0, Math.min(1, x))`. -/
noncomputable def rclamp (x : ℝ) : ℝ := max 0 (min 1 x)

/-- The logistic sigmoid `1 / (1 + exp(-x))` of line 228. -/
noncomputable def sigmoid (x : ℝ) : ℝ := 1 / (1 + Real.exp (-x))

/-- Pre-exponential scale components (lines 211-215): the
`scale_0 || scale_x || 0.01` fallback chains, before `exp` is mapped over
them on line 217. -/
def rawScalePre (v : Vertex) : ℚ × ℚ × ℚ :=
  (jsOr2 (jget v (bs "scale_0")) (jget v (bs "scale_x")) 0.01,
   jsOr2 (jget v (bs "scale_1")) (jget v (bs "scale_y")) 0.01,
   jsOr2 (jget v (bs "scale_2")) (jget v (bs "scale_z")) 0.01)

/-- The DC coefficients before the colour fallback (lines 233-237):
`f_dc_i || 0.0`, always a number. -/
def rawDC (v : Vertex) : ℚ × ℚ × ℚ :=
  (jsOr1 (jget v (bs "f_dc_0")) 0,
   jsOr1 (jget v (bs "f_dc_1")) 0,
   jsOr1 (jget v (bs "f_dc_2")) 0)

/-- Inverse SH-DC encoding of one 8-bit colour channel
(`(c / 255 - 0.5) / 0.28209479177387814`, lines 250-254); `NaN` in, `NaN`
out. -/
def inv8bit (c : JSNum) : JSNum := c.map (fun x => (x / 255 - 1 / 2) / shC0)

/-- Inverse SH-DC encoding of one normalised colour channel
(`(c - 0.5) / 0.28209479177387814`, lines 256-260). -/
def invNorm (c : JSNum) : JSNum := c.map (fun x => (x - 1 / 2) / shC0)

/-- The name of the `i`-th rest coefficient, `f_rest_<i>`. -/
def frestName (i : Nat) : List Nat :=
  bs "f_rest_" ++ (Nat.toDigits 10 i).map Char.toNat

/-- Model of `processVertex` (lines 200-268), field by field:
position `x || 0` (and y, z); scale fallback chains then `exp`; the four raw
rotation fields; opacity `sigmoid` then `|| alpha || 0.8` then clamp (over
the reals the sigmoid of a number is strictly positive, hence always truthy,
so the fallback chain only fires when `vertex.opacity` is `undefined` or
`NaN`); the DC coefficients `f_dc_i || 0.0`; the 45 rest coefficients
`f_rest_i || 0.0`; and finally the colour fallback of lines 247-265: when
all three DC coefficients are zero, try 8-bit `red/green/blue`, then
normalised `r/g/b`, then the fixed diagnostic colour `[0.5, 0.0, -0.5]`. -/
noncomputable def processVertex (v : Vertex) : Splat :=
  let dc := rawDC v
  { position :=
      (jsOr1 (jget v (bs "x")) 0, jsOr1 (jget v (bs "y")) 0,
       jsOr1 (jget v (bs "z")) 0)
    scale :=
      (Real.exp ((rawScalePre v).1 : ℝ), Real.exp ((rawScalePre v).2.1 : ℝ),
       Real.exp ((rawScalePre v).2.2 : ℝ))
    rotation :=
      (jget v (bs "rot_0"), jget v (bs "rot_1"), jget v (bs "rot_2"),
       jget v (bs "rot_3"))
    opacity :=
      match jget v (bs "opacity") with
      | some (some x) => rclamp (sigmoid (x : ℝ))
      | _ => rclamp ((jsOr1 (jget v (bs "alpha")) 0.8 : ℚ) : ℝ)
    sh_dc :=
      if dc.1 = 0 ∧ dc.2.1 = 0 ∧ dc.2.2 = 0 then
        if (jget v (bs "red")).isSome ∧ (jget v (bs "green")).isSome ∧
            (jget v (bs "blue")).isSome then
          (inv8bit ((jget v (bs "red")).join),
           inv8bit ((jget v (bs "green")).join),
           inv8bit ((jget v (bs "blue")).join))
        else if (jget v (bs "r")).isSome ∧ (jget v (bs "g")).isSome ∧
            (jget v (bs "b")).isSome then
          (invNorm ((jget v (bs "r")).join),
           invNorm ((jget v (bs "g")).join),
           invNorm ((jget v (bs "b")).join))
        else (some (1 / 2), some 0, some (-(1 / 2)))
      else (some dc.1, some dc.2.1, some dc.2.2)
    sh_rest := (List.range 45).map (fun i => jsOr1 (jget v (frestName i)) 0) }

/-- One binary record: read every property at its precomputed offset
(lines 155-159); any out-of-range read throws, aborting the record. -/
def readVertexFields (buf : List Nat) (base : Nat) (le : Bool) :
    List (PlyProperty × Nat) → Option Vertex
  | [] => some []
  | (p, po) :: rest =>
    match readBinaryValue buf (base + po) p.type le,
        readVertexFields buf base le rest with
    | some x, some fs => some ((p.name, x) :: fs)
    | _, _ => none

/-- The binary vertex loop (lines 148-165), reading record `i` at
`offset + i * vertexSize`; a throw anywhere aborts the whole decode. -/
noncomputable def parseBinaryAux (buf : List Nat) (off vsz : Nat) (le : Bool)
    (layout : List (PlyProperty × Nat)) : Nat → Nat → Option (List Splat)
  | _, 0 => some []
  | i, k + 1 =>
    match readVertexFields buf (off + i * vsz) le layout with
    | none => none
    | some v =>
      match parseBinaryAux buf off vsz le layout (i + 1) k with
      | none => none
      | some rest => some (processVertex v :: rest)

/-- The vertex count the binary loop actually runs
(`i < header.vertexCount` with a possibly `NaN` or negative count iterates
zero times). -/
def vCount (h : PlyHeader) : Nat :=
  match h.vertexCount with
  | some n => n.toNat
  | none => 0

/-- Model of `parseBinaryVertices` (lines 148-165). -/
noncomputable def parseBinaryVertices (buf : List Nat) (off : Nat)
    (hdr : PlyHeader) : Option (List Splat) :=
  parseBinaryAux buf off (vertexSize hdr.properties) hdr.littleEndian
    (propOffsets hdr.properties 0) 0 (vCount hdr)

/-- Model of `createVertex` (lines 190-198) before post-processing: assign
`vertex[properties[i].name] = values[i]` for `i` below both lengths. -/
def createVertexRaw : List JSNum → List PlyProperty → Vertex
  | _, [] => []
  | [], _ => []
  | x :: xs, p :: ps => (p.name, x) :: createVertexRaw xs ps

/-- Model of `createVertex` (lines 190-198): build the raw vertex then post-process
it. -/
noncomputable def createVertex (values : List JSNum) (props : List PlyProperty) :
    Splat :=
  processVertex (createVertexRaw values props)

/-- The whitespace-delimited tokens of a trimmed line
(`line.trim().split(/\s+/)`). -/
def splitTokens (t : List Nat) : List (List Nat) :=
  (splitP isWSb t).filter (fun w => w ≠ [])

/-- The ascii vertex loop (lines 137-143): one non-blank line per vertex,
bounded by both the line count and the vertex count; a line is parsed into
floats and only produces a vertex when it has at least three values. -/
noncomputable def parseAsciiLoop (props : List PlyProperty) :
    List (List Nat) → Nat → List Splat
  | _, 0 => []
  | [], _ => []
  | l :: rest, k + 1 =>
    let values := (splitTokens (trimB l)).map parseFloatB
    if 3 ≤ values.length then
      createVertex values props :: parseAsciiLoop props rest k
    else parseAsciiLoop props rest k

/-- Model of `parseAsciiVertices` (lines 132-146): decode the buffer past the header
offset, drop blank lines, then run the loop. -/
noncomputable def parseAsciiVertices (buf : List Nat) (off : Nat)
    (hdr : PlyHeader) : List Splat :=
  parseAsciiLoop hdr.properties
    ((splitP (fun b => b == 10) (buf.drop off)).filter (fun l => trimB l ≠ []))
    (vCount hdr)

/-- Model of `parseVertices` (lines 93-102): format dispatch. -/
noncomputable def parseVertices (buf : List Nat) (off : Nat) (hdr : PlyHeader) :
    Option (List Splat) :=
  if hdr.format = some (bs "ascii") then some (parseAsciiVertices buf off hdr)
  else parseBinaryVertices buf off hdr

/-- Model of `parse` (lines 28-42): header then vertices from `header.headerLength`. -/
noncomputable def parsePly (buf : List Nat) : Option (List Splat) :=
  parseVertices buf (parseHeader buf).headerLength (parseHeader buf)

/-- The display colour derivation of the column-store assembler
(lines 372-378): `0.5 + 0.28209479177387814 * dc` per channel.  The
`Float32Array` rounding of the stored value is outside the rational model. -/
def rgbFromDC (dc : JSNum) : JSNum := dc.map (fun d => 1 / 2 + shC0 * d)

/-- Display colour triple of one splat, as stored in the `color` buffer
attribute. -/
def rgbOfSplat (s : Splat) : JSNum × JSNum × JSNum :=
  (rgbFromDC s.sh_dc.1, rgbFromDC s.sh_dc.2.1, rgbFromDC s.sh_dc.2.2)

/-- The derived `rgbcolor` array of `createGaussianSplatMesh`
(lines 372-378), one triple per splat. -/
def meshColorArray (vs : List Splat) : List (JSNum × JSNum × JSNum) :=
  vs.map rgbOfSplat

/-- The degree-1 SH basis constant `0.48860251190291987` of the shader. -/
def shC1 : ℚ := 0.48860251190291987

/-- The first degree-2 SH basis constant `1.0925484305920792`. -/
def shC2a : ℚ := 1.0925484305920792

/-- The second degree-2 SH basis constant `0.94617469575755997`. -/
def shC2b : ℚ := 0.94617469575755997

/-- The third degree-2 SH basis constant `0.54627421529603959`. -/
def shC2c : ℚ := 0.54627421529603959

/-- The grouped rest-coefficient vertex attributes consumed by the SH
evaluator (`sh_rest_0_2` .. `sh_rest_21_23`; `sh_rest_24_26` is declared but
not read by the evaluator). -/
structure SHRestAttrs where
  sh_rest_0_2 : ℚ × ℚ × ℚ
  sh_rest_3_5 : ℚ × ℚ × ℚ
  sh_rest_6_8 : ℚ × ℚ × ℚ
  sh_rest_9_11 : ℚ × ℚ × ℚ
  sh_rest_12_14 : ℚ × ℚ × ℚ
  sh_rest_15_17 : ℚ × ℚ × ℚ
  sh_rest_18_20 : ℚ × ℚ × ℚ
  sh_rest_21_23 : ℚ × ℚ × ℚ
deriving DecidableEq

/-- GLSL `clamp(x, 0.0, 1.0)`. -/
def clamp01 (x : ℚ) : ℚ := max 0 (min 1 x)

/-- Componentwise `clamp(color, 0.0, 1.0)`. -/
def clamp3 (c : ℚ × ℚ × ℚ) : ℚ × ℚ × ℚ :=
  (clamp01 c.1, clamp01 c.2.1, clamp01 c.2.2)

/-- Model of `evaluateSphericalHarmonics` of the shader (lines 707-763; the
covariance-model shader at lines 442-498 is identical): start with the DC
term, return it clamped for degree below one; add the three linear terms,
return clamped for degree below two; add the five quadratic terms and return
the result with the final clamp commented out. -/
def evaluateSphericalHarmonics (dir : ℚ × ℚ × ℚ) (sh_dc : ℚ × ℚ × ℚ)
    (degree : Int) (rest : SHRestAttrs) : ℚ × ℚ × ℚ :=
  let color :=
    (1 / 2 + shC0 * sh_dc.1, 1 / 2 + shC0 * sh_dc.2.1, 1 / 2 + shC0 * sh_dc.2.2)
  if degree < 1 then clamp3 color
  else
    let x := dir.1
    let y := dir.2.1
    let z := dir.2.2
    let color :=
      (color.1 + -shC1 * y * rest.sh_rest_0_2.1 + shC1 * z * rest.sh_rest_3_5.1
         + -shC1 * x * rest.sh_rest_6_8.1,
       color.2.1 + -shC1 * y * rest.sh_rest_0_2.2.1
         + shC1 * z * rest.sh_rest_3_5.2.1 + -shC1 * x * rest.sh_rest_6_8.2.1,
       color.2.2 + -shC1 * y * rest.sh_rest_0_2.2.2
         + shC1 * z * rest.sh_rest_3_5.2.2 + -shC1 * x * rest.sh_rest_6_8.2.2)
    if degree < 2 then clamp3 color
    else
      let xx := x * x
      let yy := y * y
      let zz := z * z
      let xy := x * y
      let yz := y * z
      let xz := x * z
      (color.1 + shC2a * xy * rest.sh_rest_9_11.1
         + -shC2a * yz * rest.sh_rest_12_14.1
         + shC2b * (2 * zz - xx - yy) * rest.sh_rest_15_17.1
         + -shC2a * xz * rest.sh_rest_18_20.1
         + shC2c * (xx - yy) * rest.sh_rest_21_23.1,
       color.2.1 + shC2a * xy * rest.sh_rest_9_11.2.1
         + -shC2a * yz * rest.sh_rest_12_14.2.1
         + shC2b * (2 * zz - xx - yy) * rest.sh_rest_15_17.2.1
         + -shC2a * xz * rest.sh_rest_18_20.2.1
         + shC2c * (xx - yy) * rest.sh_rest_21_23.2.1,
       color.2.2 + shC2a * xy * rest.sh_rest_9_11.2.2
         + -shC2a * yz * rest.sh_rest_12_14.2.2
         + shC2b * (2 * zz - xx - yy) * rest.sh_rest_15_17.2.2
         + -shC2a * xz * rest.sh_rest_18_20.2.2
         + shC2c * (xx - yy) * rest.sh_rest_21_23.2.2)

/-- All-zero rest coefficients. -/
def shRestZero : SHRestAttrs :=
  ⟨(0, 0, 0), (0, 0, 0), (0, 0, 0), (0, 0, 0), (0, 0, 0), (0, 0, 0), (0, 0, 0),
   (0, 0, 0)⟩

/-- A complete little-endian binary PLY file: one `float x` vertex record
(the bytes of `1.0f`) followed by five bytes of trailing slack. -/
def slackBuf : List Nat :=
  bs "ply\nformat binary_little_endian 1.0\nelement vertex 1\nproperty float x\nend_header\n"
    ++ [0, 0, 128, 63, 1, 2, 3, 4, 5]

/-- Properties of a four-column ascii layout, for the C9 witness. -/
def w9props : List PlyProperty :=
  [⟨bs "float", bs "x"⟩, ⟨bs "float", bs "y"⟩, ⟨bs "float", bs "z"⟩,
   ⟨bs "float", bs "w"⟩]

/-- Two parsed values — fewer than the four declared properties. -/
def w9values : List JSNum := [some 1, some 2]

/-- A complete ascii PLY file with four declared properties whose single
vertex line has only two tokens. -/
def shortLineBuf : List Nat :=
  bs "ply\nformat ascii 1.0\nelement vertex 1\nproperty float x\nproperty float y\nproperty float z\nproperty float w\nend_header\n1 2\n"

/-! ### Basic facts about the JavaScript helpers and the transforms -/

theorem jtruthy_num {q : ℚ} (h : q ≠ 0) : jtruthy (some (some q)) = some q := by
  simp [jtruthy, h]

theorem jsOr2_fst {a b : Option JSNum} {q d : ℚ} (ha : a = some (some q))
    (h : q ≠ 0) : jsOr2 a b d = q := by
  subst ha; simp [jsOr2, jtruthy_num h, Option.orElse]

theorem jsOr2_dflt {a b : Option JSNum} {d : ℚ} (ha : a = none) (hb : b = none) :
    jsOr2 a b d = d := by
  subst ha; subst hb; simp [jsOr2, jtruthy]

theorem jsOr2_zero_fst {a b : Option JSNum} {d : ℚ} (ha : a = some (some 0))
    (hb : b = none) : jsOr2 a b d = d := by
  subst ha; subst hb; simp [jsOr2, jtruthy]

theorem sigmoid_pos (x : ℝ) : 0 < sigmoid x := by
  have h := Real.exp_pos (-x)
  unfold sigmoid
  positivity

theorem sigmoid_le_one (x : ℝ) : sigmoid x ≤ 1 := by
  have h := Real.exp_pos (-x)
  rw [sigmoid, div_le_one (by linarith)]
  linarith

theorem sigmoid_zero : sigmoid 0 = 1 / 2 := by
  rw [sigmoid, neg_zero, Real.exp_zero]
  norm_num

theorem rclamp_nonneg (x : ℝ) : 0 ≤ rclamp x := le_max_left 0 _

theorem rclamp_le_one (x : ℝ) : rclamp x ≤ 1 :=
  max_le (by norm_num) (min_le_left 1 x)

theorem rclamp_of_unit {x : ℝ} (h0 : 0 ≤ x) (h1 : x ≤ 1) : rclamp x = x := by
  rw [rclamp, min_eq_right h1, max_eq_right h0]

theorem processVertex_scale (v : Vertex) :
    (processVertex v).scale =
      (Real.exp ((rawScalePre v).1 : ℝ), Real.exp ((rawScalePre v).2.1 : ℝ),
       Real.exp ((rawScalePre v).2.2 : ℝ)) := rfl

/-! ### C4 — scale decoding -/

/-- C4 (amended): each decoded scale component is `exp` of the raw value
whenever that raw value is present and nonzero, is always strictly positive,
and falls back to `0.01` before exponentiation when the scale fields are
absent, so the default decoded component is `e^0.01`. -/
theorem scale_decode_spec (v : Vertex) :
    (∀ q : ℚ, jget v (bs "scale_0") = some (some q) → q ≠ 0 →
        (processVertex v).scale.1 = Real.exp (q : ℝ))
    ∧ (∀ q : ℚ, jget v (bs "scale_1") = some (some q) → q ≠ 0 →
        (processVertex v).scale.2.1 = Real.exp (q : ℝ))
    ∧ (∀ q : ℚ, jget v (bs "scale_2") = some (some q) → q ≠ 0 →
        (processVertex v).scale.2.2 = Real.exp (q : ℝ))
    ∧ (0 < (processVertex v).scale.1 ∧ 0 < (processVertex v).scale.2.1 ∧
        0 < (processVertex v).scale.2.2)
    ∧ (jget v (bs "scale_0") = none → jget v (bs "scale_x") = none →
        (processVertex v).scale.1 = Real.exp ((0.01 : ℚ) : ℝ)) := by
  refine ⟨?_, ?_, ?_, ⟨?_, ?_, ?_⟩, ?_⟩
  · intro q hq hne
    rw [processVertex_scale]
    simp only [rawScalePre, jsOr2_fst hq hne]
  · intro q hq hne
    rw [processVertex_scale]
    simp only [rawScalePre, jsOr2_fst hq hne]
  · intro q hq hne
    rw [processVertex_scale]
    simp only [rawScalePre, jsOr2_fst hq hne]
  · rw [processVertex_scale]; exact Real.exp_pos _
  · rw [processVertex_scale]; exact Real.exp_pos _
  · rw [processVertex_scale]; exact Real.exp_pos _
  · intro h0 hx
    rw [processVertex_scale]
    simp only [rawScalePre, jsOr2_dflt h0 hx]

/-- C4 witness: a vertex with `scale_0 = 2` decodes the first scale component
to `e^2`. -/
theorem scale_decode_spec_witness :
    jget [(bs "scale_0", (some 2 : JSNum))] (bs "scale_0") = some (some 2)
    ∧ (2 : ℚ) ≠ 0
    ∧ (processVertex [(bs "scale_0", (some 2 : JSNum))]).scale.1 =
        Real.exp ((2 : ℚ) : ℝ) :=
  ⟨rfl, by norm_num,
    (scale_decode_spec [(bs "scale_0", (some 2 : JSNum))]).1 2 rfl (by norm_num)⟩

/-- C4 counterexample: a present raw scale value of `0` does not decode to
`exp 0 = 1`; the `||` chain treats it as absent and the component becomes
`e^0.01`. -/
theorem scale_decode_counterexample :
    (processVertex [(bs "scale_0", (some 0 : JSNum))]).scale.1 =
        Real.exp ((0.01 : ℚ) : ℝ)
    ∧ (processVertex [(bs "scale_0", (some 0 : JSNum))]).scale.1 ≠
        Real.exp ((0 : ℚ) : ℝ) := by
  have h1 : jget [(bs "scale_0", (some 0 : JSNum))] (bs "scale_0") =
      some (some 0) := rfl
  have h2 : jget [(bs "scale_0", (some 0 : JSNum))] (bs "scale_x") = none := by
    decide
  constructor
  · rw [processVertex_scale]
    simp only [rawScalePre]
    rw [jsOr2_zero_fst h1 h2]
  · rw [processVertex_scale]
    simp only [rawScalePre]
    rw [jsOr2_zero_fst h1 h2]
    rw [Ne, Real.exp_eq_exp]
    norm_num

/-! ### C10 — zero raw scale treated as absent -/

/-- C10: a raw scale field equal to `0` is falsy, so the `0.01` fallback
applies before exponentiation and the decoded component is `e^0.01`, not
`e^0 = 1` (stated per component, with the alternative name absent so the
chain reaches the default). -/
theorem scale_zero_fallback (v : Vertex) :
    (jget v (bs "scale_0") = some (some 0) → jget v (bs "scale_x") = none →
        (processVertex v).scale.1 = Real.exp ((0.01 : ℚ) : ℝ) ∧
          (processVertex v).scale.1 ≠ 1)
    ∧ (jget v (bs "scale_1") = some (some 0) → jget v (bs "scale_y") = none →
        (processVertex v).scale.2.1 = Real.exp ((0.01 : ℚ) : ℝ) ∧
          (processVertex v).scale.2.1 ≠ 1)
    ∧ (jget v (bs "scale_2") = some (some 0) → jget v (bs "scale_z") = none →
        (processVertex v).scale.2.2 = Real.exp ((0.01 : ℚ) : ℝ) ∧
          (processVertex v).scale.2.2 ≠ 1) := by
  have hne : Real.exp ((0.01 : ℚ) : ℝ) ≠ 1 := by
    rw [Ne, Real.exp_eq_one_iff]
    norm_num
  refine ⟨fun h0 hx => ?_, fun h0 hx => ?_, fun h0 hx => ?_⟩ <;>
    rw [processVertex_scale] <;> simp only [rawScalePre] <;>
    rw [jsOr2_zero_fst h0 hx] <;> exact ⟨rfl, hne⟩

/-- C10 witness: concrete vertex with `scale_0 = 0`. -/
theorem scale_zero_fallback_witness :
    jget [(bs "scale_0", (some 0 : JSNum))] (bs "scale_0") = some (some 0)
    ∧ jget [(bs "scale_0", (some 0 : JSNum))] (bs "scale_x") = none
    ∧ (processVertex [(bs "scale_0", (some 0 : JSNum))]).scale.1 =
        Real.exp ((0.01 : ℚ) : ℝ) :=
  ⟨rfl, rfl,
    ((scale_zero_fallback [(bs "scale_0", (some 0 : JSNum))]).1 rfl rfl).1⟩

/-! ### C5 — opacity decoding -/

theorem processVertex_opacity (v : Vertex) :
    (processVertex v).opacity =
      match jget v (bs "opacity") with
      | some (some x) => rclamp (sigmoid (x : ℝ))
      | _ => rclamp ((jsOr1 (jget v (bs "alpha")) 0.8 : ℚ) : ℝ) := rfl

/-- C5: a numeric raw opacity decodes to its sigmoid (the clamp is the
identity on the sigmoid's range); when the raw opacity is missing, the
`alpha || 0.8` fallback is taken inside the clamp; the decoded opacity
always lies in the unit interval; and a raw opacity of `0` decodes to
`sigmoid 0 = 0.5`. -/
theorem opacity_decode_spec (v : Vertex) :
    (∀ q : ℚ, jget v (bs "opacity") = some (some q) →
        (processVertex v).opacity = sigmoid (q : ℝ))
    ∧ (jget v (bs "opacity") = none →
        (processVertex v).opacity =
          rclamp ((jsOr1 (jget v (bs "alpha")) 0.8 : ℚ) : ℝ))
    ∧ (0 ≤ (processVertex v).opacity ∧ (processVertex v).opacity ≤ 1)
    ∧ (jget v (bs "opacity") = some (some 0) →
        (processVertex v).opacity = 1 / 2) := by
  have hbound : 0 ≤ (processVertex v).opacity ∧ (processVertex v).opacity ≤ 1 := by
    rw [processVertex_opacity]
    rcases jget v (bs "opacity") with _ | (_ | x) <;>
      exact ⟨rclamp_nonneg _, rclamp_le_one _⟩
  refine ⟨fun q hq => ?_, fun h => ?_, hbound, fun h0 => ?_⟩
  · rw [processVertex_opacity, hq]
    exact rclamp_of_unit (le_of_lt (sigmoid_pos _)) (sigmoid_le_one _)
  · rw [processVertex_opacity, h]
  · rw [processVertex_opacity, h0]
    show rclamp (sigmoid ((0 : ℚ) : ℝ)) = 1 / 2
    have : ((0 : ℚ) : ℝ) = 0 := by norm_num
    rw [this, rclamp_of_unit (le_of_lt (sigmoid_pos _)) (sigmoid_le_one _),
      sigmoid_zero]

/-- C5 witness: a vertex whose raw opacity is `0` decodes to `0.5`. -/
theorem opacity_decode_spec_witness :
    jget [(bs "opacity", (some 0 : JSNum))] (bs "opacity") = some (some 0)
    ∧ (processVertex [(bs "opacity", (some 0 : JSNum))]).opacity = 1 / 2 :=
  ⟨rfl, (opacity_decode_spec [(bs "opacity", (some 0 : JSNum))]).2.2.2 rfl⟩

/-! ### C3 — colour fallback resolution order -/

theorem processVertex_sh_dc (v : Vertex) :
    (processVertex v).sh_dc =
      (if (rawDC v).1 = 0 ∧ (rawDC v).2.1 = 0 ∧ (rawDC v).2.2 = 0 then
        if (jget v (bs "red")).isSome ∧ (jget v (bs "green")).isSome ∧
            (jget v (bs "blue")).isSome then
          (inv8bit ((jget v (bs "red")).join),
           inv8bit ((jget v (bs "green")).join),
           inv8bit ((jget v (bs "blue")).join))
        else if (jget v (bs "r")).isSome ∧ (jget v (bs "g")).isSome ∧
            (jget v (bs "b")).isSome then
          (invNorm ((jget v (bs "r")).join),
           invNorm ((jget v (bs "g")).join),
           invNorm ((jget v (bs "b")).join))
        else (some (1 / 2), some 0, some (-(1 / 2)))
      else (some (rawDC v).1, some (rawDC v).2.1, some (rawDC v).2.2)) := rfl

theorem processVertex_sh_dc_cases (v : Vertex) :
    ((rawDC v).1 = 0 ∧ (rawDC v).2.1 = 0 ∧ (rawDC v).2.2 = 0 →
      ((jget v (bs "red")).isSome ∧ (jget v (bs "green")).isSome ∧
          (jget v (bs "blue")).isSome →
        (processVertex v).sh_dc =
          (inv8bit ((jget v (bs "red")).join),
           inv8bit ((jget v (bs "green")).join),
           inv8bit ((jget v (bs "blue")).join)))
      ∧ (¬((jget v (bs "red")).isSome ∧ (jget v (bs "green")).isSome ∧
            (jget v (bs "blue")).isSome) →
          ((jget v (bs "r")).isSome ∧ (jget v (bs "g")).isSome ∧
              (jget v (bs "b")).isSome →
            (processVertex v).sh_dc =
              (invNorm ((jget v (bs "r")).join),
               invNorm ((jget v (bs "g")).join),
               invNorm ((jget v (bs "b")).join)))
          ∧ (¬((jget v (bs "r")).isSome ∧ (jget v (bs "g")).isSome ∧
                (jget v (bs "b")).isSome) →
              (processVertex v).sh_dc = (some (1 / 2), some 0, some (-(1 / 2))))))
    ∧ (¬((rawDC v).1 = 0 ∧ (rawDC v).2.1 = 0 ∧ (rawDC v).2.2 = 0) →
        (processVertex v).sh_dc =
          (some (rawDC v).1, some (rawDC v).2.1, some (rawDC v).2.2)) := by
  refine ⟨fun hz => ⟨fun h8 => ?_, fun hn8 => ⟨fun hn => ?_, fun hnn => ?_⟩⟩,
    fun hnz => ?_⟩ <;> rw [processVertex_sh_dc]
  · rw [if_pos hz, if_pos h8]
  · rw [if_pos hz, if_neg hn8, if_pos hn]
  · rw [if_pos hz, if_neg hn8, if_neg hnn]
  · rw [if_neg hnz]

/-- C3: the colour fallback order of `processVertex`.  When the three
defaulted DC coefficients are all zero: a complete 8-bit `red/green/blue`
source wins (regardless of any `r/g/b` fields) and is decoded by the inverse
SH-DC encoding; failing that, a complete normalised `r/g/b` source is used;
failing both, the diagnostic default `[0.5, 0.0, -0.5]`.  When some DC
coefficient is nonzero, the DC coefficients are kept unchanged. -/
theorem colorDC_fallback_spec (v : Vertex) :
    ((rawDC v).1 = 0 ∧ (rawDC v).2.1 = 0 ∧ (rawDC v).2.2 = 0 →
      ((jget v (bs "red")).isSome ∧ (jget v (bs "green")).isSome ∧
          (jget v (bs "blue")).isSome →
        (processVertex v).sh_dc =
          (inv8bit ((jget v (bs "red")).join),
           inv8bit ((jget v (bs "green")).join),
           inv8bit ((jget v (bs "blue")).join)))
      ∧ (¬((jget v (bs "red")).isSome ∧ (jget v (bs "green")).isSome ∧
            (jget v (bs "blue")).isSome) →
          ((jget v (bs "r")).isSome ∧ (jget v (bs "g")).isSome ∧
              (jget v (bs "b")).isSome →
            (processVertex v).sh_dc =
              (invNorm ((jget v (bs "r")).join),
               invNorm ((jget v (bs "g")).join),
               invNorm ((jget v (bs "b")).join)))
          ∧ (¬((jget v (bs "r")).isSome ∧ (jget v (bs "g")).isSome ∧
                (jget v (bs "b")).isSome) →
              (processVertex v).sh_dc = (some (1 / 2), some 0, some (-(1 / 2))))))
    ∧ (¬((rawDC v).1 = 0 ∧ (rawDC v).2.1 = 0 ∧ (rawDC v).2.2 = 0) →
        (processVertex v).sh_dc =
          (some (rawDC v).1, some (rawDC v).2.1, some (rawDC v).2.2)) :=
  processVertex_sh_dc_cases v

/-- C3 witness: a vertex with no colour source at all gets the diagnostic
default DC colour. -/
theorem colorDC_fallback_spec_witness :
    ((rawDC []).1 = 0 ∧ (rawDC []).2.1 = 0 ∧ (rawDC []).2.2 = 0)
    ∧ (processVertex ([] : Vertex)).sh_dc = (some (1 / 2), some 0, some (-(1 / 2))) :=
  ⟨⟨rfl, rfl, rfl⟩,
    (((colorDC_fallback_spec []).1 ⟨rfl, rfl, rfl⟩).2 (by decide)).2 (by decide)⟩

/-! ### C6 — derived display RGB -/

/-- C6: the column-store assembler derives the display colour as
`0.5 + 0.28209479177387814 * dc` from the DC coefficients alone (so two
splats with equal `sh_dc` get equal display colours, whatever fallback
produced them); and for a vertex with no `f_dc_*` fields but 8-bit
`red,green,blue = 255,0,0` the DC colour is the inverse encoding
`[(1-0.5)/c, (0-0.5)/c, (0-0.5)/c]` and the derived display colour is
exactly `[1, 0, 0]`. -/
theorem displayRGB_spec :
    (∀ s t : Splat, s.sh_dc = t.sh_dc → rgbOfSplat s = rgbOfSplat t)
    ∧ (∀ vs : List Splat, meshColorArray vs = vs.map rgbOfSplat)
    ∧ (∀ v : Vertex,
        jget v (bs "f_dc_0") = none → jget v (bs "f_dc_1") = none →
        jget v (bs "f_dc_2") = none →
        jget v (bs "red") = some (some 255) →
        jget v (bs "green") = some (some 0) →
        jget v (bs "blue") = some (some 0) →
        (processVertex v).sh_dc =
          (some ((1 - 1 / 2) / shC0), some ((0 - 1 / 2) / shC0),
           some ((0 - 1 / 2) / shC0))
        ∧ rgbOfSplat (processVertex v) = (some 1, some 0, some 0)) := by
  refine ⟨fun s t h => ?_, fun vs => rfl, fun v h0 h1 h2 hr hg hb => ?_⟩
  · rw [rgbOfSplat, rgbOfSplat, h]
  · have hz : (rawDC v).1 = 0 ∧ (rawDC v).2.1 = 0 ∧ (rawDC v).2.2 = 0 := by
      simp [rawDC, h0, h1, h2, jsOr1, jtruthy]
    have h8 : (jget v (bs "red")).isSome ∧ (jget v (bs "green")).isSome ∧
        (jget v (bs "blue")).isSome := by rw [hr, hg, hb]; exact ⟨rfl, rfl, rfl⟩
    have hdc := ((processVertex_sh_dc_cases v).1 hz).1 h8
    rw [hr, hg, hb] at hdc
    have hdc' : (processVertex v).sh_dc =
        (some ((1 - 1 / 2) / shC0), some ((0 - 1 / 2) / shC0),
         some ((0 - 1 / 2) / shC0)) := by
      rw [hdc]
      simp only [Option.join, inv8bit, Option.map_some']
      norm_num
    refine ⟨hdc', ?_⟩
    rw [rgbOfSplat, hdc']
    simp only [rgbFromDC, Option.map_some']
    have hc : shC0 ≠ 0 := by rw [shC0]; norm_num
    have e1 : 1 / 2 + shC0 * ((1 - 1 / 2) / shC0) = (1 : ℚ) := by
      field_simp
      ring
    have e2 : 1 / 2 + shC0 * ((0 - 1 / 2) / shC0) = (0 : ℚ) := by
      field_simp
    rw [e1, e2]

/-! ### C8 — spherical-harmonics evaluation by degree -/

theorem clamp01_nonneg (x : ℚ) : 0 ≤ clamp01 x := le_max_left 0 _

theorem clamp01_le_one (x : ℚ) : clamp01 x ≤ 1 :=
  max_le (by norm_num) (min_le_left 1 x)

/-- C8 (amended): the requested degree clamps the expansion — degree below
one uses only the DC term (independent of direction and rest coefficients),
degree one adds the three linear terms, and every degree of at least two
evaluates the same degree-two expansion.  The early returns for degrees
below two clamp the colour to the unit interval, so only the degree-two
path can overshoot — and it can, as the last conjunct shows on concrete
input. -/
theorem sh_eval_degree_spec (dir dc : ℚ × ℚ × ℚ) (deg : Int)
    (rest : SHRestAttrs) :
    (deg < 1 → ∀ (dir' : ℚ × ℚ × ℚ) (rest' : SHRestAttrs),
        evaluateSphericalHarmonics dir dc deg rest =
          evaluateSphericalHarmonics dir' dc deg rest')
    ∧ (deg < 1 → evaluateSphericalHarmonics dir dc deg rest =
        clamp3 (1 / 2 + shC0 * dc.1, 1 / 2 + shC0 * dc.2.1,
          1 / 2 + shC0 * dc.2.2))
    ∧ (deg = 1 → evaluateSphericalHarmonics dir dc deg rest =
        clamp3
          (1 / 2 + shC0 * dc.1 + -shC1 * dir.2.1 * rest.sh_rest_0_2.1
             + shC1 * dir.2.2 * rest.sh_rest_3_5.1
             + -shC1 * dir.1 * rest.sh_rest_6_8.1,
           1 / 2 + shC0 * dc.2.1 + -shC1 * dir.2.1 * rest.sh_rest_0_2.2.1
             + shC1 * dir.2.2 * rest.sh_rest_3_5.2.1
             + -shC1 * dir.1 * rest.sh_rest_6_8.2.1,
           1 / 2 + shC0 * dc.2.2 + -shC1 * dir.2.1 * rest.sh_rest_0_2.2.2
             + shC1 * dir.2.2 * rest.sh_rest_3_5.2.2
             + -shC1 * dir.1 * rest.sh_rest_6_8.2.2))
    ∧ (2 ≤ deg → evaluateSphericalHarmonics dir dc deg rest =
        evaluateSphericalHarmonics dir dc 2 rest)
    ∧ (deg ≤ 1 →
        (0 ≤ (evaluateSphericalHarmonics dir dc deg rest).1 ∧
          (evaluateSphericalHarmonics dir dc deg rest).1 ≤ 1)
        ∧ (0 ≤ (evaluateSphericalHarmonics dir dc deg rest).2.1 ∧
          (evaluateSphericalHarmonics dir dc deg rest).2.1 ≤ 1)
        ∧ (0 ≤ (evaluateSphericalHarmonics dir dc deg rest).2.2 ∧
          (evaluateSphericalHarmonics dir dc deg rest).2.2 ≤ 1))
    ∧ 1 < (evaluateSphericalHarmonics (0, 0, 1) (10, 10, 10) 2 shRestZero).1 := by
  have hlt : ∀ d : Int, d < 1 →
      evaluateSphericalHarmonics dir dc d rest =
        clamp3 (1 / 2 + shC0 * dc.1, 1 / 2 + shC0 * dc.2.1,
          1 / 2 + shC0 * dc.2.2) := by
    intro d hd
    rw [evaluateSphericalHarmonics, if_pos hd]
  have heq1 : deg = 1 → evaluateSphericalHarmonics dir dc deg rest =
      clamp3
        (1 / 2 + shC0 * dc.1 + -shC1 * dir.2.1 * rest.sh_rest_0_2.1
           + shC1 * dir.2.2 * rest.sh_rest_3_5.1
           + -shC1 * dir.1 * rest.sh_rest_6_8.1,
         1 / 2 + shC0 * dc.2.1 + -shC1 * dir.2.1 * rest.sh_rest_0_2.2.1
           + shC1 * dir.2.2 * rest.sh_rest_3_5.2.1
           + -shC1 * dir.1 * rest.sh_rest_6_8.2.1,
         1 / 2 + shC0 * dc.2.2 + -shC1 * dir.2.1 * rest.sh_rest_0_2.2.2
           + shC1 * dir.2.2 * rest.sh_rest_3_5.2.2
           + -shC1 * dir.1 * rest.sh_rest_6_8.2.2) := by
    intro hd
    subst hd
    rw [evaluateSphericalHarmonics]
    norm_num
  refine ⟨fun hd dir' rest' => ?_, hlt deg, heq1, fun hd => ?_, fun hd => ?_, ?_⟩
  · rw [hlt deg hd, evaluateSphericalHarmonics, if_pos hd]
  · rw [evaluateSphericalHarmonics, if_neg (by omega), if_neg (by omega)]
    rw [evaluateSphericalHarmonics]
    norm_num
  · rcases lt_or_eq_of_le hd with hd1 | hd1
    · rw [hlt deg hd1]
      exact ⟨⟨clamp01_nonneg _, clamp01_le_one _⟩,
        ⟨clamp01_nonneg _, clamp01_le_one _⟩,
        ⟨clamp01_nonneg _, clamp01_le_one _⟩⟩
    · rw [heq1 hd1]
      exact ⟨⟨clamp01_nonneg _, clamp01_le_one _⟩,
        ⟨clamp01_nonneg _, clamp01_le_one _⟩,
        ⟨clamp01_nonneg _, clamp01_le_one _⟩⟩
  · rw [evaluateSphericalHarmonics,
      if_neg (by norm_num : ¬((2 : Int) < 1)),
      if_neg (by norm_num : ¬((2 : Int) < 2))]
    rw [shRestZero, shC0]
    norm_num

/-- C8 witness: at requested degree zero the evaluator returns the clamped
DC colour. -/
theorem sh_eval_degree_spec_witness :
    (0 : Int) < 1
    ∧ evaluateSphericalHarmonics (0, 0, 1) (2, 0, 0) 0 shRestZero =
        clamp3 (1 / 2 + shC0 * 2, 1 / 2 + shC0 * 0, 1 / 2 + shC0 * 0) :=
  ⟨by norm_num,
    (sh_eval_degree_spec (0, 0, 1) (2, 0, 0) 0 shRestZero).2.1 (by norm_num)⟩

/-- C8 counterexample: at requested degree zero the returned colour is
re-clamped to the unit interval — on DC coefficient `10` the red channel
comes back as `1`, not as the unclamped `0.5 + 0.28209479177387814 * 10`. -/
theorem sh_eval_clamp_counterexample :
    evaluateSphericalHarmonics (0, 0, 1) (10, 0, 0) 0 shRestZero =
      (1, 1 / 2, 1 / 2)
    ∧ (1 : ℚ) ≠ 1 / 2 + shC0 * 10 := by
  constructor
  · rw [evaluateSphericalHarmonics, if_pos (by norm_num : (0 : Int) < 1)]
    rw [clamp3, shC0]
    simp only [clamp01, min_def, max_def]
    norm_num
  · rw [shC0]; norm_num

/-- C6 witness: the concrete red vertex. -/
theorem displayRGB_spec_witness :
    (jget [(bs "red", (some 255 : JSNum)), (bs "green", (some 0 : JSNum)),
        (bs "blue", (some 0 : JSNum))] (bs "red") = some (some 255))
    ∧ rgbOfSplat (processVertex
        [(bs "red", (some 255 : JSNum)), (bs "green", (some 0 : JSNum)),
         (bs "blue", (some 0 : JSNum))]) = (some 1, some 0, some 0) :=
  ⟨by decide,
    (displayRGB_spec.2.2
      [(bs "red", (some 255 : JSNum)), (bs "green", (some 0 : JSNum)),
       (bs "blue", (some 0 : JSNum))]
      (by decide) (by decide) (by decide) (by decide) (by decide) (by decide)).2⟩

/-! ### C2 — header parsing never fails -/

theorem headerStep_headerLength (h : PlyHeader) (t : List Nat) :
    (headerStep h t).headerLength = h.headerLength := by
  rw [headerStep]
  split_ifs <;> rfl

theorem headerStep_vertexCount (h : PlyHeader) (t : List Nat)
    (hne : ¬((splitP (fun b => b == 32) t).get? 0 = some (bs "element") ∧
      (splitP (fun b => b == 32) t).get? 1 = some (bs "vertex"))) :
    (headerStep h t).vertexCount = h.vertexCount := by
  rw [headerStep]
  split_ifs <;> rfl

theorem parseHeaderLoop_headerLength_const :
    ∀ (lines : List (List Nat)) (h : PlyHeader) (inH : Bool) (acc : Nat),
      (∀ l ∈ lines, trimB l ≠ bs "end_header") →
      (parseHeaderLoop lines h inH acc).headerLength = h.headerLength := by
  intro lines
  induction lines with
  | nil => intro h inH acc _; rfl
  | cons l rest ih =>
    intro h inH acc hno
    have hl : trimB l ≠ bs "end_header" := hno l (by simp)
    have hrest : ∀ x ∈ rest, trimB x ≠ bs "end_header" :=
      fun x hx => hno x (by simp [hx])
    rw [parseHeaderLoop]
    rw [if_neg hl]
    split_ifs with h1 h2
    · exact ih h true _ hrest
    · exact ih h inH _ hrest
    · rw [ih (headerStep h (trimB l)) inH _ hrest, headerStep_headerLength]

theorem parseHeaderLoop_vertexCount_const :
    ∀ (lines : List (List Nat)) (h : PlyHeader) (inH : Bool) (acc : Nat),
      (∀ l ∈ lines,
        ¬((splitP (fun b => b == 32) (trimB l)).get? 0 = some (bs "element") ∧
          (splitP (fun b => b == 32) (trimB l)).get? 1 = some (bs "vertex"))) →
      (parseHeaderLoop lines h inH acc).vertexCount = h.vertexCount := by
  intro lines
  induction lines with
  | nil => intro h inH acc _; rfl
  | cons l rest ih =>
    intro h inH acc hno
    have hl := hno l (by simp)
    have hrest : ∀ x ∈ rest,
        ¬((splitP (fun b => b == 32) (trimB x)).get? 0 = some (bs "element") ∧
          (splitP (fun b => b == 32) (trimB x)).get? 1 = some (bs "vertex")) :=
      fun x hx => hno x (by simp [hx])
    rw [parseHeaderLoop]
    split_ifs with h1 h2 h3
    · exact ih h true _ hrest
    · rfl
    · exact ih h inH _ hrest
    · rw [ih (headerStep h (trimB l)) inH _ hrest,
        headerStep_vertexCount h (trimB l) hl]


/-- C2 (amended): `parseHeader` is total and never raises.  When no line of
the buffer trims to `end_header`, it still returns a header object, with
`headerLength` left at its initial `0`; when no `element vertex` line
occurs, the returned `vertexCount` is the initial `0`. -/
theorem parseHeader_total_on_malformed (buf : List Nat) :
    ((∀ l ∈ splitP (fun b => b == 10) buf, trimB l ≠ bs "end_header") →
      (parseHeader buf).headerLength = 0)
    ∧ ((∀ l ∈ splitP (fun b => b == 10) buf,
        ¬((splitP (fun b => b == 32) (trimB l)).get? 0 = some (bs "element") ∧
          (splitP (fun b => b == 32) (trimB l)).get? 1 = some (bs "vertex"))) →
      (parseHeader buf).vertexCount = some 0) :=
  ⟨fun hno => parseHeaderLoop_headerLength_const _ _ _ _ hno,
   fun hno => parseHeaderLoop_vertexCount_const _ _ _ _ hno⟩

/-- C2 witness: instantiating the amended theorem on a concrete buffer with
no `end_header` and no `element vertex` line. -/
theorem parseHeader_total_on_malformed_witness :
    (∀ l ∈ splitP (fun b => b == 10) (bs "ply\nformat ascii 1.0\n"),
      trimB l ≠ bs "end_header")
    ∧ (parseHeader (bs "ply\nformat ascii 1.0\n")).headerLength = 0
    ∧ (parseHeader (bs "ply\nformat ascii 1.0\n")).vertexCount = some 0 :=
  ⟨by decide,
   (parseHeader_total_on_malformed (bs "ply\nformat ascii 1.0\n")).1 (by decide),
   (parseHeader_total_on_malformed (bs "ply\nformat ascii 1.0\n")).2 (by decide)⟩

/-- C2 counterexample: on a buffer with no `end_header` line the parser does
not fail — it returns a fully formed header object (the claimed
`MalformedHeaderError` does not exist anywhere in the loader). -/
theorem parseHeader_no_end_header_counterexample :
    parseHeader (bs "ply\nformat ascii 1.0\n") =
      { format := some (bs "ascii"), vertexCount := some 0, properties := [],
        headerLength := 0, littleEndian := false } := by
  decide

/-! ### C7 — header byte length -/

theorem trueHeaderLen_isSome :
    ∀ lines : List (List Nat), (∃ l ∈ lines, trimB l = bs "end_header") →
      (trueHeaderLen lines).isSome := by
  intro lines
  induction lines with
  | nil => rintro ⟨l, hl, _⟩; cases hl
  | cons l rest ih =>
    rintro ⟨x, hx, hex⟩
    rw [trueHeaderLen]
    by_cases hl : trimB l = bs "end_header"
    · rw [if_pos hl]; rfl
    · rw [if_neg hl]
      rcases List.mem_cons.mp hx with h | h
      · exact absurd (h ▸ hex) hl
      · have hs := ih ⟨x, h, hex⟩
        rcases Option.isSome_iff_exists.mp hs with ⟨n, hn⟩
        rw [hn]
        rfl

theorem parseHeaderLoop_headerLength_eq :
    ∀ (lines : List (List Nat)) (h : PlyHeader) (inH : Bool) (acc : Nat),
      (∃ l ∈ lines, trimB l = bs "end_header") →
      (∀ l ∈ linesThroughEnd lines, trimB l = l) →
      (parseHeaderLoop lines h inH acc).headerLength =
        acc + (trueHeaderLen lines).getD 0 := by
  intro lines
  induction lines with
  | nil => rintro h inH acc ⟨l, hl, _⟩ _; cases hl
  | cons l rest ih =>
    intro h inH acc hex htrim
    by_cases hl : trimB l = bs "end_header"
    · have hll : trimB l = l := by
        apply htrim
        rw [linesThroughEnd, if_pos hl]
        exact List.mem_singleton.mpr rfl
      have hply : trimB l ≠ bs "ply" := by rw [hl]; decide
      rw [parseHeaderLoop, if_neg hply, if_pos hl]
      rw [trueHeaderLen, if_pos hl]
      simp [hll]
      omega
    · have hll : trimB l = l := by
        apply htrim
        rw [linesThroughEnd, if_neg hl]
        exact List.mem_cons_self l _
      have hex' : ∃ x ∈ rest, trimB x = bs "end_header" := by
        rcases hex with ⟨x, hx, hxe⟩
        rcases List.mem_cons.mp hx with hh | hh
        · exact absurd (hh ▸ hxe) hl
        · exact ⟨x, hh, hxe⟩
      have htrim' : ∀ x ∈ linesThroughEnd rest, trimB x = x := by
        intro x hx
        apply htrim
        rw [linesThroughEnd, if_neg hl]
        exact List.mem_cons_of_mem l hx
      have hsome := trueHeaderLen_isSome rest hex'
      have hstep : ∀ (h' : PlyHeader) (inH' : Bool),
          (parseHeaderLoop rest h' inH' (acc + (trimB l).length + 1)).headerLength =
            acc + (trimB l).length + 1 + (trueHeaderLen rest).getD 0 :=
        fun h' inH' => ih h' inH' _ hex' htrim'
      have hrhs : (trueHeaderLen (l :: rest)).getD 0 =
          l.length + 1 + (trueHeaderLen rest).getD 0 := by
        rw [trueHeaderLen, if_neg hl]
        rcases hn : trueHeaderLen rest with _ | n
        · rw [hn] at hsome; cases hsome
        · rfl
      rw [parseHeaderLoop, if_neg hl]
      rw [hrhs]
      split_ifs with h1 h2
      · rw [hstep]; rw [hll]; omega
      · rw [hstep]; rw [hll]; omega
      · rw [hstep]; rw [hll]; omega

/-- C7 (amended): when every header line up to and including the
`end_header` line carries no leading or trailing whitespace (in particular
no carriage returns: the parser rebuilds the header from trimmed lines),
the computed `headerLength` equals the true byte length of all header lines
including the terminating newline — counted in bytes, so non-ASCII comment
bytes are counted correctly. -/
theorem headerLength_true_offset (buf : List Nat)
    (hend : ∃ l ∈ splitP (fun b => b == 10) buf, trimB l = bs "end_header")
    (htrim : ∀ l ∈ linesThroughEnd (splitP (fun b => b == 10) buf),
      trimB l = l) :
    some (parseHeader buf).headerLength =
      trueHeaderLen (splitP (fun b => b == 10) buf) := by
  rw [parseHeader, parseHeaderLoop_headerLength_eq _ _ _ _ hend htrim]
  rcases hn : trueHeaderLen (splitP (fun b => b == 10) buf) with _ | n
  · have hs := trueHeaderLen_isSome _ hend
    rw [hn] at hs; cases hs
  · simp

/-- C7 witness: on a concrete newline-terminated header the computed length
is the true byte offset. -/
theorem headerLength_true_offset_witness :
    (∃ l ∈ splitP (fun b => b == 10) (bs "ply\nelement vertex 1\nend_header\nDATA"),
      trimB l = bs "end_header")
    ∧ some (parseHeader (bs "ply\nelement vertex 1\nend_header\nDATA")).headerLength =
        trueHeaderLen (splitP (fun b => b == 10)
          (bs "ply\nelement vertex 1\nend_header\nDATA")) :=
  ⟨by decide,
    headerLength_true_offset (bs "ply\nelement vertex 1\nend_header\nDATA")
      (by decide) (by decide)⟩

/-- C7 counterexample: a header with CRLF line endings.  Trimming strips the
carriage returns, so the computed `headerLength` (81) undercounts the true
byte offset of the vertex data (86): the vertex data is not read from the
true byte offset for every input buffer. -/
theorem headerLength_crlf_counterexample :
    (parseHeader (bs "ply\r\nformat binary_little_endian 1.0\r\nelement vertex 1\r\nproperty float x\r\nend_header\r\n")).headerLength = 81
    ∧ trueHeaderLen (splitP (fun b => b == 10)
        (bs "ply\r\nformat binary_little_endian 1.0\r\nelement vertex 1\r\nproperty float x\r\nend_header\r\n")) = some 86
    ∧ ¬some (parseHeader (bs "ply\r\nformat binary_little_endian 1.0\r\nelement vertex 1\r\nproperty float x\r\nend_header\r\n")).headerLength =
        trueHeaderLen (splitP (fun b => b == 10)
          (bs "ply\r\nformat binary_little_endian 1.0\r\nelement vertex 1\r\nproperty float x\r\nend_header\r\n")) := by
  refine ⟨by decide, by decide, ?_⟩
  intro h
  rw [show (parseHeader (bs "ply\r\nformat binary_little_endian 1.0\r\nelement vertex 1\r\nproperty float x\r\nend_header\r\n")).headerLength = 81 from by decide] at h
  rw [show trueHeaderLen (splitP (fun b => b == 10)
      (bs "ply\r\nformat binary_little_endian 1.0\r\nelement vertex 1\r\nproperty float x\r\nend_header\r\n")) = some 86 from by decide] at h
  cases h

/-! ### C1 — binary decode: record count and truncation behaviour -/

theorem vertexSize_cons (p : PlyProperty) (ps : List PlyProperty) :
    vertexSize (p :: ps) = getTypeSize p.type + vertexSize ps := by
  rw [vertexSize, vertexSize, List.map_cons, List.sum_cons]

theorem propOffsets_bound :
    ∀ (props : List PlyProperty) (base : Nat) (pr : PlyProperty × Nat),
      pr ∈ propOffsets props base →
      pr.2 + getTypeSize pr.1.type ≤ base + vertexSize props := by
  intro props
  induction props with
  | nil => intro base pr h; cases h
  | cons p ps ih =>
    intro base pr h
    rw [propOffsets] at h
    rw [vertexSize_cons]
    rcases List.mem_cons.mp h with h | h
    · subst h; simp
    · have := ih (base + getTypeSize p.type) pr h
      omega

theorem propOffsets_last :
    ∀ (props : List PlyProperty) (base : Nat), props ≠ [] →
      ∃ pr ∈ propOffsets props base,
        pr.2 + getTypeSize pr.1.type = base + vertexSize props := by
  intro props
  induction props with
  | nil => intro base h; exact absurd rfl h
  | cons p ps ih =>
    intro base _
    rcases hps : ps with _ | ⟨q, qs⟩
    · refine ⟨(p, base), by rw [propOffsets]; exact List.mem_singleton.mpr rfl, ?_⟩
      rw [vertexSize_cons]
      simp [vertexSize]
    · rw [← hps]
      have hne : ps ≠ [] := by rw [hps]; exact List.cons_ne_nil q qs
      rcases ih (base + getTypeSize p.type) hne with ⟨pr, hmem, heq⟩
      refine ⟨pr, ?_, ?_⟩
      · rw [propOffsets]; exact List.mem_cons_of_mem _ hmem
      · rw [vertexSize_cons]; omega

theorem readVertexFields_some (buf : List Nat) (base : Nat) (le : Bool) :
    ∀ layout : List (PlyProperty × Nat),
      (∀ pr ∈ layout, base + pr.2 + getTypeSize pr.1.type ≤ buf.length) →
      ∃ v, readVertexFields buf base le layout = some v := by
  intro layout
  induction layout with
  | nil => intro _; exact ⟨[], rfl⟩
  | cons pr rest ih =>
    intro hb
    rcases pr with ⟨p, po⟩
    have h1 : base + po + getTypeSize p.type ≤ buf.length :=
      hb (p, po) (List.mem_cons_self _ _)
    have hr : readBinaryValue buf (base + po) p.type le =
        some (decodeScalar p.type ((buf.drop (base + po)).take (getTypeSize p.type)) le) := by
      rw [readBinaryValue, readBytes, if_pos h1, Option.map_some']
    rcases ih (fun q hq => hb q (List.mem_cons_of_mem _ hq)) with ⟨fs, hfs⟩
    refine ⟨(p.name, decodeScalar p.type ((buf.drop (base + po)).take (getTypeSize p.type)) le) :: fs, ?_⟩
    rw [readVertexFields, hr, hfs]

theorem readVertexFields_none (buf : List Nat) (base : Nat) (le : Bool) :
    ∀ layout : List (PlyProperty × Nat),
      (∃ pr ∈ layout, buf.length < base + pr.2 + getTypeSize pr.1.type) →
      readVertexFields buf base le layout = none := by
  intro layout
  induction layout with
  | nil => rintro ⟨pr, hpr, _⟩; cases hpr
  | cons hd rest ih =>
    rintro ⟨pr, hpr, hlt⟩
    rcases hd with ⟨p, po⟩
    rcases List.mem_cons.mp hpr with h | h
    · rw [h] at hlt
      simp only [Prod.fst, Prod.snd] at hlt
      have hnone : readBinaryValue buf (base + po) p.type le = none := by
        rw [readBinaryValue, readBytes, if_neg (by omega), Option.map_none']
      rw [readVertexFields, hnone]
    · rw [readVertexFields, ih ⟨pr, h, hlt⟩]
      rcases readBinaryValue buf (base + po) p.type le with _ | x <;> rfl

theorem parseBinaryAux_length (buf : List Nat) (off vsz : Nat) (le : Bool)
    (layout : List (PlyProperty × Nat))
    (hlay : ∀ pr ∈ layout, pr.2 + getTypeSize pr.1.type ≤ vsz) :
    ∀ (k i : Nat), off + (i + k) * vsz ≤ buf.length →
      ∃ l, parseBinaryAux buf off vsz le layout i k = some l ∧ l.length = k := by
  intro k
  induction k with
  | zero => intro i _; exact ⟨[], rfl, rfl⟩
  | succ k ih =>
    intro i hb
    have hbound : ∀ pr ∈ layout,
        off + i * vsz + pr.2 + getTypeSize pr.1.type ≤ buf.length := by
      intro pr hpr
      have h1 := hlay pr hpr
      have h2 : (i + 1) * vsz ≤ (i + (k + 1)) * vsz :=
        Nat.mul_le_mul_right vsz (by omega)
      have h3 : (i + 1) * vsz = i * vsz + vsz := by ring
      omega
    rcases readVertexFields_some buf (off + i * vsz) le layout hbound with ⟨v, hv⟩
    have hnext : off + (i + 1 + k) * vsz ≤ buf.length := by
      have : i + 1 + k = i + (k + 1) := by omega
      rw [this]; exact hb
    rcases ih (i + 1) hnext with ⟨l, hl, hlen⟩
    refine ⟨processVertex v :: l, ?_, by simp [hlen]⟩
    rw [parseBinaryAux, hv, hl]

theorem parseBinaryAux_none (buf : List Nat) (off vsz : Nat) (le : Bool)
    (layout : List (PlyProperty × Nat))
    (hlast : ∃ pr ∈ layout, pr.2 + getTypeSize pr.1.type = vsz) :
    ∀ (k i : Nat), 1 ≤ k → buf.length < off + (i + k) * vsz →
      parseBinaryAux buf off vsz le layout i k = none := by
  intro k
  induction k with
  | zero => intro i h; cases h
  | succ k ih =>
    intro i _ hb
    rcases Nat.eq_zero_or_pos k with hk | hk
    · subst hk
      rcases hlast with ⟨pr, hpr, heq⟩
      have hb' : buf.length < off + (i + 1) * vsz := by simpa using hb
      have hnone : readVertexFields buf (off + i * vsz) le layout = none := by
        apply readVertexFields_none
        refine ⟨pr, hpr, ?_⟩
        have h3 : (i + 1) * vsz = i * vsz + vsz := by ring
        omega
      rw [parseBinaryAux, hnone]
    · have hnext : buf.length < off + (i + 1 + k) * vsz := by
        have : i + 1 + k = i + (k + 1) := by omega
        rw [this]; exact hb
      have hrest := ih (i + 1) hk hnext
      rw [parseBinaryAux, hrest]
      rcases readVertexFields buf (off + i * vsz) le layout with _ | v <;> rfl

/-- C1 (amended): for the binary path, whenever
`offset + vertexCount * recordByteSize` fits inside the buffer the decoder
produces exactly `vertexCount` splat records (no equality with the total
buffer length is required — trailing bytes are simply ignored, and no
`TruncatedDataError` exists in the loader); and whenever the declared
records exceed the buffer, the underlying `DataView` read throws, the
whole decode aborts, and no partial collection is returned. -/
theorem parseBinaryVertices_count (buf : List Nat) (off : Nat)
    (hdr : PlyHeader) :
    (off + vCount hdr * vertexSize hdr.properties ≤ buf.length →
      (parseBinaryVertices buf off hdr).map List.length = some (vCount hdr))
    ∧ (hdr.properties ≠ [] → 1 ≤ vCount hdr →
      buf.length < off + vCount hdr * vertexSize hdr.properties →
      parseBinaryVertices buf off hdr = none) := by
  constructor
  · intro hb
    have hlay : ∀ pr ∈ propOffsets hdr.properties 0,
        pr.2 + getTypeSize pr.1.type ≤ vertexSize hdr.properties := by
      intro pr hpr
      have := propOffsets_bound hdr.properties 0 pr hpr
      omega
    rcases parseBinaryAux_length buf off (vertexSize hdr.properties)
        hdr.littleEndian (propOffsets hdr.properties 0) hlay (vCount hdr) 0
        (by simpa using hb) with ⟨l, hl, hlen⟩
    rw [parseBinaryVertices, hl, Option.map_some', hlen]
  · intro hne hpos hb
    rcases propOffsets_last hdr.properties 0 hne with ⟨pr, hmem, heq⟩
    rw [parseBinaryVertices]
    exact parseBinaryAux_none buf off (vertexSize hdr.properties)
      hdr.littleEndian (propOffsets hdr.properties 0)
      ⟨pr, hmem, by omega⟩ (vCount hdr) 0 hpos (by simpa using hb)

/-- C1 witness: on the concrete file the decoder produces exactly one
record. -/
theorem parseBinaryVertices_count_witness :
    (parseHeader slackBuf).headerLength
        + vCount (parseHeader slackBuf) * vertexSize (parseHeader slackBuf).properties
        ≤ slackBuf.length
    ∧ (parseBinaryVertices slackBuf (parseHeader slackBuf).headerLength
        (parseHeader slackBuf)).map List.length =
          some (vCount (parseHeader slackBuf)) :=
  ⟨by decide,
    (parseBinaryVertices_count slackBuf (parseHeader slackBuf).headerLength
      (parseHeader slackBuf)).1 (by decide)⟩

/-- C1 counterexample: on the slack buffer the decode succeeds with exactly
one record even though `headerByteLength + N * R` is not equal to the total
buffer length, and no error of any kind is raised — refuting the claimed
equality-or-`TruncatedDataError` disjunction. -/
theorem parseBinaryVertices_slack_counterexample :
    (parseBinaryVertices slackBuf (parseHeader slackBuf).headerLength
        (parseHeader slackBuf)).map List.length = some 1
    ∧ (parseHeader slackBuf).headerLength
        + vCount (parseHeader slackBuf) * vertexSize (parseHeader slackBuf).properties
        ≠ slackBuf.length := by
  constructor
  · have hlay : ∀ pr ∈ propOffsets (parseHeader slackBuf).properties 0,
        pr.2 + getTypeSize pr.1.type ≤ vertexSize (parseHeader slackBuf).properties := by
      decide
    rcases parseBinaryAux_length slackBuf (parseHeader slackBuf).headerLength
        (vertexSize (parseHeader slackBuf).properties)
        (parseHeader slackBuf).littleEndian
        (propOffsets (parseHeader slackBuf).properties 0) hlay 1 0
        (by decide) with ⟨l, hl, hlen⟩
    rw [parseBinaryVertices]
    rw [show vCount (parseHeader slackBuf) = 1 from by decide]
    rw [hl, Option.map_some', hlen]
  · decide

/-! ### C9 — ascii decoding -/

theorem parseAsciiLoop_eq (props : List PlyProperty) :
    ∀ (lines : List (List Nat)) (n : Nat),
      parseAsciiLoop props lines n =
        (((lines.take n).filter
            (fun l => 3 ≤ ((splitTokens (trimB l)).map parseFloatB).length)).map
          (fun l => createVertex ((splitTokens (trimB l)).map parseFloatB) props)) := by
  intro lines
  induction lines with
  | nil =>
    intro n
    rcases n with _ | n <;> rfl
  | cons l rest ih =>
    intro n
    rcases n with _ | n
    · rfl
    · rw [parseAsciiLoop]
      by_cases h : 3 ≤ ((splitTokens (trimB l)).map parseFloatB).length
      · rw [if_pos h, List.take_succ_cons,
          List.filter_cons_of_pos (by simpa using h), List.map_cons, ih n]
      · rw [if_neg h, List.take_succ_cons,
          List.filter_cons_of_neg (by simpa using h), ih n]

/-- C9 (amended): the ascii decoder consumes one whitespace-delimited line
per vertex in order, ignoring blank lines and stopping at the declared
vertex count; a line produces a splat record exactly when it has at least
three tokens (lines with fewer tokens are dropped, producing no record);
and within a produced record the raw fields are assigned in property order,
one per available token, every property beyond the token count being left
undefined for the post-processor to default. -/
theorem ascii_decode_spec :
    (∀ (buf : List Nat) (off : Nat) (hdr : PlyHeader),
      parseAsciiVertices buf off hdr =
        (((((splitP (fun b => b == 10) (buf.drop off)).filter
              (fun l => trimB l ≠ [])).take (vCount hdr)).filter
            (fun l => 3 ≤ ((splitTokens (trimB l)).map parseFloatB).length)).map
          (fun l => createVertex ((splitTokens (trimB l)).map parseFloatB)
            hdr.properties)))
    ∧ (∀ (values : List JSNum) (props : List PlyProperty) (i : Nat)
          (p : PlyProperty),
        props.get? i = some p → (props.map PlyProperty.name).Nodup →
        jget (createVertexRaw values props) p.name = values.get? i) := by
  constructor
  · intro buf off hdr
    rw [parseAsciiVertices, parseAsciiLoop_eq]
  · intro values props
    induction props generalizing values with
    | nil => intro i p h _; cases h
    | cons p0 ps ih =>
      intro i p hget hnd
      rcases values with _ | ⟨x, xs⟩
      · rw [show createVertexRaw [] (p0 :: ps) = [] from rfl]
        rfl
      · rcases i with _ | i
        · rw [List.get?_cons_zero] at hget
          injection hget with hpe
          subst hpe
          rw [createVertexRaw, jget, if_pos rfl, List.get?_cons_zero]
        · rw [List.get?_cons_succ] at hget
          rw [List.map_cons] at hnd
          have hnotin := (List.nodup_cons.mp hnd).1
          have hnd' : (ps.map PlyProperty.name).Nodup :=
            (List.nodup_cons.mp hnd).2
          have hmem : p ∈ ps := List.get?_mem hget
          have hne : ¬(p0.name = p.name) := fun he =>
            hnotin (he ▸ List.mem_map_of_mem PlyProperty.name hmem)
          rw [createVertexRaw, jget, if_neg hne, List.get?_cons_succ]
          exact ih xs i p hget hnd'

/-- C9 witness: with two tokens and four properties, the first two fields
are assigned in order and the later fields stay undefined. -/
theorem ascii_decode_spec_witness :
    w9props.get? 0 = some ⟨bs "float", bs "x"⟩
    ∧ w9props.get? 2 = some ⟨bs "float", bs "z"⟩
    ∧ (w9props.map PlyProperty.name).Nodup
    ∧ jget (createVertexRaw w9values w9props) (bs "x") = some (some 1)
    ∧ jget (createVertexRaw w9values w9props) (bs "z") = none :=
  ⟨by decide, by decide, by decide,
   ascii_decode_spec.2 w9values w9props 0 ⟨bs "float", bs "x"⟩ (by decide)
     (by decide),
   ascii_decode_spec.2 w9values w9props 2 ⟨bs "float", bs "z"⟩ (by decide)
     (by decide)⟩

/-- C9 counterexample: a vertex line with fewer than three tokens produces
no splat record at all — the decoder yields zero records for a declared
count of one with four properties, refuting the claim that every short line
still produces a record. -/
theorem ascii_short_line_counterexample :
    (parseAsciiVertices shortLineBuf (parseHeader shortLineBuf).headerLength
        (parseHeader shortLineBuf)).length = 0
    ∧ vCount (parseHeader shortLineBuf) = 1
    ∧ (parseHeader shortLineBuf).properties.length = 4
    ∧ (splitTokens (trimB (bs "1 2"))).length = 2 :=
  ⟨rfl, by decide, by decide, by decide⟩

end GSplat
